import Mathlib

/-!
# Verification of the `getprose` localization core

Shallow embedding of `src/src/lib.rs`: the `Locale` enumeration and its
string parsing, the `gettext`-family lookups over translation catalogs,
the `FormatBuilder` curly-brace template formatter, and the
locale-sensitive float formatter `format_f64`.

Conventions:
* The Rust `f64` argument of `format_f64` is modelled as an exact decimal
  number `mant * 10^(-exp)` (`Dec` below); the function's own documentation
  fixes the rounding rule ("rounding halves away from zero") and the unit
  tests in `src/src/lib.rs` fix the concrete outputs reproduced here.
* External crates (`gettext`'s `Catalog`, `dynfmt`'s `SimpleCurlyFormat`
  and `NoopFormat`, `format_num`, `num_format` locale data) are modelled
  from the spec and the repository's doc comments and tests, as noted on
  each definition.
-/

set_option linter.unusedVariables false

namespace Getprose

/-- The supported locales (enum `Locale` in `src/src/lib.rs`, variants
`de_DE = 0` through `ru_RU = 6`). -/
inductive Locale where
  | de_DE
  | en_GB
  | es_ES
  | fr_FR
  | it_IT
  | pt_PT
  | ru_RU
deriving DecidableEq, Repr

/-- Error carrying the unrecognized tag (`UnknownLocaleError(String)`). -/
structure UnknownLocaleError where
  tag : String
deriving DecidableEq, Repr

/-- The full tag of a locale, as matched first in `FromStr for Locale`. -/
def Locale.fullTag : Locale → String
  | .de_DE => "de_DE"
  | .en_GB => "en_GB"
  | .es_ES => "es_ES"
  | .fr_FR => "fr_FR"
  | .it_IT => "it_IT"
  | .pt_PT => "pt_PT"
  | .ru_RU => "ru_RU"

/-- The short-code alias of a locale, as matched second in
`FromStr for Locale`. -/
def Locale.shortTag : Locale → String
  | .de_DE => "de"
  | .en_GB => "en"
  | .es_ES => "es"
  | .fr_FR => "fr"
  | .it_IT => "it"
  | .pt_PT => "pt"
  | .ru_RU => "ru"

/-- Embeds `<Locale as FromStr>::from_str` (`src/src/lib.rs` lines 188-203):
matches both the full tag and the short code of every variant and fails
with `UnknownLocaleError` carrying the input otherwise. -/
def Locale.fromStr (s : String) : Except UnknownLocaleError Locale :=
  if s = "de_DE" ∨ s = "de" then .ok .de_DE
  else if s = "en_GB" ∨ s = "en" then .ok .en_GB
  else if s = "es_ES" ∨ s = "es" then .ok .es_ES
  else if s = "fr_FR" ∨ s = "fr" then .ok .fr_FR
  else if s = "it_IT" ∨ s = "it" then .ok .it_IT
  else if s = "pt_PT" ∨ s = "pt" then .ok .pt_PT
  else if s = "ru_RU" ∨ s = "ru" then .ok .ru_RU
  else .error ⟨s⟩

/-- The strings `from_str` accepts: every full tag and every short code. -/
def Locale.knownTags : List String :=
  ["de_DE", "de", "en_GB", "en", "es_ES", "es", "fr_FR", "fr",
   "it_IT", "it", "pt_PT", "pt", "ru_RU", "ru"]

/-- Modelled from the spec: the `gettext` crate's `Catalog` (the spec's
opaque "Catalog": a mapping from a message key, optionally scoped by a
context, to a list of translated plural forms, together with the
catalog's own plural-rule function mapping a count to a form index).
The crate itself is an external collaborator, consumed, not reimplemented. -/
structure Catalog where
  lookup : Option String → String → Option (List String)
  pluralIdx : Nat → Nat

/-- Modelled from the spec: `Catalog::empty()` (used by `load_catalog` for
`de_DE`): no translations, and the default two-form plural rule. -/
def Catalog.empty : Catalog :=
  { lookup := fun _ _ => none
    pluralIdx := fun n => if n = 1 then 0 else 1 }

/-- Modelled from the spec: `Catalog::gettext` — direct key lookup, no
context; an untranslated key degrades to the key itself. -/
def Catalog.gettext (c : Catalog) (singular : String) : String :=
  match c.lookup none singular with
  | some (t :: _) => t
  | _ => singular

/-- Modelled from the spec: `Catalog::ngettext` — resolves the plural form
for `n` with the catalog's own plural-rule function; an untranslated key
(or a missing form) degrades to the singular key when `n = 1` and to the
plural key otherwise. -/
def Catalog.ngettext (c : Catalog) (singular plural : String) (n : Nat) : String :=
  match c.lookup none singular with
  | some forms =>
      match forms.get? (c.pluralIdx n) with
      | some t => t
      | none => if n = 1 then singular else plural
  | none => if n = 1 then singular else plural

/-- Modelled from the spec: `Catalog::pgettext` — lookup disambiguated by
a translator-facing context string; same fallback-to-key behavior. -/
def Catalog.pgettext (c : Catalog) (context singular : String) : String :=
  match c.lookup (some context) singular with
  | some (t :: _) => t
  | _ => singular

/-- Modelled from the spec: `Catalog::npgettext` — context-scoped plural
lookup, combination of `pgettext` and `ngettext`. -/
def Catalog.npgettext (c : Catalog) (context singular plural : String) (n : Nat) : String :=
  match c.lookup (some context) singular with
  | some forms =>
      match forms.get? (c.pluralIdx n) with
      | some t => t
      | none => if n = 1 then singular else plural
  | none => if n = 1 then singular else plural

/-- Embeds `Locale::gettext` (`src/src/lib.rs` line 130): delegates to the
locale's catalog. The global `CATALOGS` registry is passed explicitly as
`cats` (one catalog per locale, total, as `get_catalog` guarantees after
initialization). -/
def Locale.gettext (cats : Locale → Catalog) (loc : Locale) (singular : String) : String :=
  (cats loc).gettext singular

/-- Embeds `Locale::ngettext` (`src/src/lib.rs` line 136). -/
def Locale.ngettext (cats : Locale → Catalog) (loc : Locale)
    (singular plural : String) (n : Nat) : String :=
  (cats loc).ngettext singular plural n

/-- Embeds `Locale::pgettext` (`src/src/lib.rs` line 142). -/
def Locale.pgettext (cats : Locale → Catalog) (loc : Locale)
    (context singular : String) : String :=
  (cats loc).pgettext context singular

/-- Embeds `Locale::npgettext` (`src/src/lib.rs` line 149). -/
def Locale.npgettext (cats : Locale → Catalog) (loc : Locale)
    (context singular plural : String) (n : Nat) : String :=
  (cats loc).npgettext context singular plural n

/-- The error type of the strict formatting path, `dynfmt::Error`:
a placeholder key with no bound argument, or a malformed template. -/
inductive FormatError where
  | missingArg (key : String)
  | badFormat
deriving DecidableEq, Repr

/-- Embeds `FormatBuilder` (`src/src/lib.rs` lines 211-216): the template
`tpl` and the argument map `args` from placeholder name to its
already-stringified value (Rust `HashMap<&str, String>`, modelled as a
partial function). -/
structure FormatBuilder where
  tpl : List Char
  args : String → Option String

/-- Embeds `FormatBuilder::arg` (`src/src/lib.rs` line 220):
`HashMap::insert`, overwriting any previous binding of `key`. -/
def FormatBuilder.arg (b : FormatBuilder) (key value : String) : FormatBuilder :=
  { b with args := fun k => if k = key then some value else b.args k }

/-- Embeds `FormatBuilder::args` (`src/src/lib.rs` line 226; renamed, the
structure field has the source name): inserts every pair of the given map
(a `HashMap`, so its keys are distinct) into the argument map. -/
def FormatBuilder.addArgs (b : FormatBuilder) (l : List (String × String)) : FormatBuilder :=
  l.foldl (fun acc kv => acc.arg kv.1 kv.2) b

/-- Embeds `<&str as ToFormat>::to_format` (`src/src/lib.rs` line 260):
a builder over the template with an empty argument map. -/
def toFormat (s : String) : FormatBuilder :=
  { tpl := s.data, args := fun _ => none }

/-- Modelled from the spec: `dynfmt::SimpleCurlyFormat.format` (the
external curly-brace formatter behind `try_format`), scanning the
template once. The second argument is the scanner state: `none` in
literal text, `some k` inside `{...}` with `k` the key's characters in
reverse. A bound placeholder is replaced by its stored value; an unbound
placeholder aborts with `missingArg`; an unterminated `{` aborts with
`badFormat`. -/
def tryFormatAux (args : String → Option String) :
    List Char → Option (List Char) → Except FormatError (List Char)
  | [], none => .ok []
  | [], some _ => .error .badFormat
  | c :: rest, none =>
      if c = '{' then tryFormatAux args rest (some [])
      else
        match tryFormatAux args rest none with
        | .ok t => .ok (c :: t)
        | .error e => .error e
  | c :: rest, some k =>
      if c = '}' then
        match args (String.mk k.reverse) with
        | none => .error (.missingArg (String.mk k.reverse))
        | some v =>
            match tryFormatAux args rest none with
            | .ok t => .ok (v.data ++ t)
            | .error e => .error e
      else tryFormatAux args rest (some (c :: k))

/-- Embeds `FormatBuilder::try_format` (`src/src/lib.rs` line 242):
formats the template, or returns the error if it failed. -/
def FormatBuilder.tryFormat (b : FormatBuilder) : Except FormatError String :=
  match tryFormatAux b.args b.tpl none with
  | .ok l => .ok (String.mk l)
  | .error e => .error e

/-- Embeds `FormatBuilder::noop_format` (`src/src/lib.rs` line 247):
`dynfmt::NoopFormat` returns the template as is, substituting nothing. -/
def FormatBuilder.noopFormat (b : FormatBuilder) : String :=
  String.mk b.tpl

/-- Embeds `FormatBuilder::format` (`src/src/lib.rs` line 234):
`try_format` if possible, else the `noop_format` fallback. -/
def FormatBuilder.format (b : FormatBuilder) : String :=
  match b.tryFormat with
  | .ok s => s
  | .error _ => b.noopFormat

/-- The placeholder keys of a template, by the same one-pass scan as
`tryFormatAux` (same scanner state convention). -/
def placeholdersAux : List Char → Option (List Char) → List String
  | [], _ => []
  | c :: rest, none =>
      if c = '{' then placeholdersAux rest (some [])
      else placeholdersAux rest none
  | c :: rest, some k =>
      if c = '}' then String.mk k.reverse :: placeholdersAux rest none
      else placeholdersAux rest (some (c :: k))

/-- The placeholder keys of a builder's template. -/
def FormatBuilder.placeholders (b : FormatBuilder) : List String :=
  placeholdersAux b.tpl none

/-- An exact decimal number `mant * 10 ^ (-exp)`: the model of the `f64`
argument of `format_f64` (every input in the repository's tests is a
decimal literal, carried here exactly). -/
structure Dec where
  mant : Int
  exp : Nat
deriving DecidableEq, Repr

/-- Rounds `d` to `p` digits after the decimal point, returning the
rounded value scaled by `10 ^ p` as an integer. Halves are rounded away
from zero, as documented on `format_f64` (`src/src/lib.rs` line 275: "If
necessary `f` is rounded to `precision` by rounding halves away from
zero"). For a magnitude `m` and a power-of-ten divisor `den` (which is
even), `(m + den / 2) / den` is exactly round-half-up on the magnitude. -/
def roundToPrec (d : Dec) (p : Nat) : Int :=
  if d.exp ≤ p then d.mant * (10 : Int) ^ (p - d.exp)
  else
    let den := (10 : Nat) ^ (d.exp - p)
    let q : Nat := (d.mant.natAbs + den / 2) / den
    if d.mant < 0 then -(q : Int) else (q : Int)

/-- The decimal digits of `n`, most significant first (`['0']` for 0). -/
def natDigits (n : Nat) : List Char :=
  Nat.toDigits 10 n

/-- Inserts the grouping mark `','` after each group of three digits,
walking the digits least significant first; the counter is the number of
digits still to emit before the next mark. -/
def groupAux : List Char → Nat → List Char
  | [], _ => []
  | c :: rest, 0 => ',' :: c :: groupAux rest 2
  | c :: rest, k + 1 => c :: groupAux rest k

/-- Groups the digits of an integer part in threes with `','`, as the
`,` flag of `format_num!(",.{}f", ...)` does. -/
def group (l : List Char) : List Char :=
  (groupAux l.reverse 3).reverse

/-- Pads a digit string on the left with `'0'` up to width `p`. -/
def padZeros (p : Nat) (ds : List Char) : List Char :=
  List.replicate (p - ds.length) '0' ++ ds

/-- Modelled from the spec: the external numeric formatter
`format_num!(",.{precision}f", f)` (the `format_num` crate, an external
collaborator). Renders the value rounded to `precision` digits with
exactly `precision` digits after `'.'` (none, and no point, for
precision 0), the integer part grouped in threes with `','`, and a
leading `'-'` exactly when the rounded value is negative — so a negative
input that rounds to zero loses its sign, per the repository's tests
(`src/src/lib.rs` lines 311-318). -/
def formatNum (p : Nat) (d : Dec) : List Char :=
  (if roundToPrec d p < 0 then ['-'] else []) ++
  group (natDigits ((roundToPrec d p).natAbs / 10 ^ p)) ++
  (if p = 0 then []
   else '.' :: padZeros p (natDigits ((roundToPrec d p).natAbs % 10 ^ p)))

/-- Replaces every occurrence of the character `c` by the string `r`
(Rust `str::replace` with a single-character pattern). -/
def replList (c : Char) (r : List Char) : List Char → List Char
  | [] => []
  | x :: l => (if x = c then r else [x]) ++ replList c r l

/-- Modelled from the spec: `num_format::Locale::decimal()` for the
locale each variant maps to in `From<Locale> for num_format::Locale`
(`src/src/lib.rs` lines 160-172) — the CLDR decimal separator. -/
def Locale.decimalChars : Locale → List Char
  | .de_DE => [',']
  | .en_GB => ['.']
  | .es_ES => [',']
  | .fr_FR => [',']
  | .it_IT => [',']
  | .pt_PT => [',']
  | .ru_RU => [',']

/-- Modelled from the spec: `num_format::Locale::separator()` for the
locale each variant maps to — the CLDR grouping separator (a no-break
space for `fr` and `ru`). -/
def Locale.separatorChars : Locale → List Char
  | .de_DE => ['.']
  | .en_GB => [',']
  | .es_ES => ['.']
  | .fr_FR => [' ']
  | .it_IT => ['.']
  | .pt_PT => ['.']
  | .ru_RU => [' ']

/-- The locale's decimal separator as a string. -/
def Locale.decimalSep (loc : Locale) : String :=
  String.mk loc.decimalChars

/-- Embeds `format_f64` (`src/src/lib.rs` lines 276-282): renders with
the external formatter (source digits `','` and `'.'`), then substitutes
the locale glyphs by the source's three-step replacement chain
`,` → `!`, `.` → decimal, `!` → separator. -/
def format_f64 (d : Dec) (p : Nat) (loc : Locale) : String :=
  String.mk
    (replList '!' loc.separatorChars
      (replList '.' loc.decimalChars
        (replList ',' ['!'] (formatNum p d))))

/-! ## Helper lemmas -/

theorem replList_append (c : Char) (r a b : List Char) :
    replList c r (a ++ b) = replList c r a ++ replList c r b := by
  induction a with
  | nil => rfl
  | cons x l ih => simp [replList, ih]

theorem replList_of_not_mem {c : Char} {l : List Char} (r : List Char) (h : c ∉ l) :
    replList c r l = l := by
  induction l with
  | nil => rfl
  | cons x l ih =>
    simp only [List.mem_cons, not_or] at h
    simp [replList, Ne.symm h.1, ih h.2]

theorem mk_append (a b : List Char) :
    String.mk a ++ String.mk b = String.mk (a ++ b) := rfl

/-- An unbound placeholder key makes the strict scan fail: the scan can
never return `ok`. -/
theorem tryFormatAux_unbound (args : String → Option String) (key : String)
    (hk : args key = none) :
    ∀ (tpl : List Char) (st : Option (List Char)),
      key ∈ placeholdersAux tpl st →
      ∀ t, tryFormatAux args tpl st ≠ Except.ok t := by
  intro tpl
  induction tpl with
  | nil =>
    intro st hmem t
    cases st with
    | none => simp [placeholdersAux] at hmem
    | some k => simp [tryFormatAux]
  | cons c rest ih =>
    intro st hmem t
    cases st with
    | none =>
      simp only [placeholdersAux] at hmem
      simp only [tryFormatAux]
      by_cases hc : c = '{'
      · rw [if_pos hc] at hmem
        rw [if_pos hc]
        exact ih (some []) hmem t
      · rw [if_neg hc] at hmem
        rw [if_neg hc]
        cases h : tryFormatAux args rest none with
        | ok t' => exact absurd h (ih none hmem t')
        | error e => simp [h]
    | some k =>
      simp only [placeholdersAux] at hmem
      simp only [tryFormatAux]
      by_cases hc : c = '}'
      · rw [if_pos hc] at hmem
        rw [if_pos hc]
        rcases List.mem_cons.mp hmem with heq | hmem'
        · subst heq
          simp only [hk]
          simp
        · cases h : args (String.mk k.reverse) with
          | none => simp [h]
          | some v =>
            simp only [h]
            cases h2 : tryFormatAux args rest none with
            | ok t' => exact absurd h2 (ih none hmem' t')
            | error e => simp [h2]
      · rw [if_neg hc] at hmem
        rw [if_neg hc]
        exact ih (some (c :: k)) hmem t

/-- An unbound placeholder makes `try_format` return an error. -/
theorem exists_error_of_unbound (b : FormatBuilder) (k : String)
    (hmem : k ∈ b.placeholders) (hnone : b.args k = none) :
    ∃ e, b.tryFormat = Except.error e := by
  have h := tryFormatAux_unbound b.args k hnone b.tpl none hmem
  unfold FormatBuilder.tryFormat
  cases hres : tryFormatAux b.args b.tpl none with
  | ok l => exact absurd hres (h l)
  | error e => exact ⟨e, rfl⟩

theorem addArgs_args_of_not_mem (b : FormatBuilder) (l : List (String × String))
    (k : String) (h : k ∉ l.map Prod.fst) :
    (b.addArgs l).args k = b.args k := by
  induction l generalizing b with
  | nil => rfl
  | cons kv rest ih =>
    simp only [List.map_cons, List.mem_cons, not_or] at h
    simp only [FormatBuilder.addArgs, List.foldl_cons]
    have hrec := ih (b.arg kv.1 kv.2) h.2
    simp only [FormatBuilder.addArgs] at hrec
    rw [hrec]
    simp [FormatBuilder.arg, h.1]

/-! ## The claims -/

/-- C3: for every supported `Locale`, parsing its full tag and parsing its
short-code alias both return that `Locale` variant, and every other input
string fails with `UnknownLocaleError` carrying the input tag. -/
theorem fromStr_roundtrip_and_unknown :
    (∀ loc : Locale, Locale.fromStr loc.fullTag = .ok loc ∧
      Locale.fromStr loc.shortTag = .ok loc) ∧
    (∀ s : String, s ∉ Locale.knownTags → Locale.fromStr s = .error ⟨s⟩) := by
  constructor
  · intro loc
    cases loc <;> exact ⟨rfl, rfl⟩
  · intro s hs
    simp only [Locale.knownTags, List.mem_cons, List.not_mem_nil, or_false, not_or] at hs
    obtain ⟨h1, h2, h3, h4, h5, h6, h7, h8, h9, h10, h11, h12, h13, h14⟩ := hs
    simp [Locale.fromStr, h1, h2, h3, h4, h5, h6, h7, h8, h9, h10, h11, h12, h13, h14]

/-- Witness for C3: the round-trip at `fr_FR` and the failure at the
concrete unknown tag `"xx"`. -/
theorem fromStr_roundtrip_and_unknown_witness :
    (Locale.fromStr (Locale.fullTag .fr_FR) = .ok .fr_FR ∧
      Locale.fromStr (Locale.shortTag .fr_FR) = .ok .fr_FR) ∧
    ("xx" ∉ Locale.knownTags ∧ Locale.fromStr "xx" = .error ⟨"xx"⟩) :=
  ⟨fromStr_roundtrip_and_unknown.1 .fr_FR,
   by decide, fromStr_roundtrip_and_unknown.2 "xx" (by decide)⟩

/-- C2: the lookup operations `gettext`, `pgettext`, `ngettext` and
`npgettext` are total (they return a `String`, never an error), and when
the key is untranslated in the locale's catalog they return the source
key text itself — the singular key, or for the plural lookups the
singular key when `n = 1` and the plural key otherwise. -/
theorem gettext_untranslated_falls_back (cats : Locale → Catalog) (loc : Locale)
    (context singular plural : String) (n : Nat)
    (h1 : (cats loc).lookup none singular = none)
    (h2 : (cats loc).lookup (some context) singular = none) :
    Locale.gettext cats loc singular = singular ∧
    Locale.pgettext cats loc context singular = singular ∧
    Locale.ngettext cats loc singular plural n = (if n = 1 then singular else plural) ∧
    Locale.npgettext cats loc context singular plural n =
      (if n = 1 then singular else plural) := by
  refine ⟨?_, ?_, ?_, ?_⟩ <;>
    simp [Locale.gettext, Locale.pgettext, Locale.ngettext, Locale.npgettext,
      Catalog.gettext, Catalog.pgettext, Catalog.ngettext, Catalog.npgettext, h1, h2]

/-- Witness for C2: the empty catalog of `de_DE` translates nothing, so
every lookup returns its source key. -/
theorem gettext_untranslated_falls_back_witness :
    ((fun _ : Locale => Catalog.empty) Locale.de_DE).lookup none "apple" = none ∧
    ((fun _ : Locale => Catalog.empty) Locale.de_DE).lookup (some "menu") "apple" = none ∧
    (Locale.gettext (fun _ => Catalog.empty) .de_DE "apple" = "apple" ∧
     Locale.pgettext (fun _ => Catalog.empty) .de_DE "menu" "apple" = "apple" ∧
     Locale.ngettext (fun _ => Catalog.empty) .de_DE "apple" "apples" 2 =
       (if 2 = 1 then "apple" else "apples") ∧
     Locale.npgettext (fun _ => Catalog.empty) .de_DE "menu" "apple" "apples" 2 =
       (if 2 = 1 then "apple" else "apples")) :=
  ⟨rfl, rfl,
   gettext_untranslated_falls_back (fun _ => Catalog.empty) .de_DE
     "menu" "apple" "apples" 2 rfl rfl⟩

/-- C9: rebinding the same placeholder name overwrites — after
`arg name v1` then `arg name v2` the binding is `v2`; and `args` (here
`addArgs`) binds each key it carries to that key's value (the keys of a
`HashMap` are distinct). -/
theorem arg_last_write_wins :
    (∀ (b : FormatBuilder) (k v1 v2 : String),
      ((b.arg k v1).arg k v2).args k = some v2) ∧
    (∀ (b : FormatBuilder) (l : List (String × String)) (k v : String),
      (l.map Prod.fst).Nodup → (k, v) ∈ l → (b.addArgs l).args k = some v) := by
  constructor
  · intro b k v1 v2
    simp [FormatBuilder.arg]
  · intro b l
    induction l generalizing b with
    | nil =>
      intro k v _ hmem
      cases hmem
    | cons kv rest ih =>
      obtain ⟨k1, v1⟩ := kv
      intro k v hnd hmem
      simp only [List.map_cons, List.nodup_cons] at hnd
      simp only [FormatBuilder.addArgs, List.foldl_cons]
      rcases List.mem_cons.mp hmem with heq | hmem'
      · obtain ⟨hk, hv⟩ := Prod.mk.injEq .. ▸ heq
        subst hk; subst hv
        have hpres := addArgs_args_of_not_mem (b.arg k v) rest k hnd.1
        simp only [FormatBuilder.addArgs] at hpres
        rw [hpres]
        simp [FormatBuilder.arg]
      · have := ih (b.arg k1 v1) k v hnd.2 hmem'
        simpa [FormatBuilder.addArgs] using this

/-- Witness for C9: rebinding `"n"` keeps only the last value, and
`addArgs` with the two-entry map binds `"a"` to its value. -/
theorem arg_last_write_wins_witness :
    (((toFormat "{n}").arg "n" "1").arg "n" "2").args "n" = some "2" ∧
    ((([("a", "x"), ("b", "y")] : List (String × String)).map Prod.fst).Nodup ∧
      ("a", "x") ∈ [("a", "x"), ("b", "y")] ∧
      ((toFormat "{a}").addArgs [("a", "x"), ("b", "y")]).args "a" = some "x") :=
  ⟨arg_last_write_wins.1 (toFormat "{n}") "n" "1" "2",
   by decide, by decide,
   arg_last_write_wins.2 (toFormat "{a}") [("a", "x"), ("b", "y")] "a" "x"
     (by decide) (by decide)⟩

/-- C10: whenever the strict path succeeds, the lenient path returns the
same string — `format` is `try_format` whenever `try_format` does not
fail. -/
theorem format_refines_tryFormat (b : FormatBuilder) (s : String)
    (h : b.tryFormat = .ok s) : b.format = s := by
  simp [FormatBuilder.format, h]

/-- A fully bound builder: template `"{a}!"` with `"a" ↦ "x"`. -/
def builderBound : FormatBuilder :=
  (toFormat "{a}!").arg "a" "x"

/-- Witness for C10: on the fully bound builder the strict path returns
`"x!"` and `format` agrees. -/
theorem format_refines_tryFormat_witness :
    builderBound.tryFormat = .ok "x!" ∧ builderBound.format = "x!" :=
  ⟨rfl, format_refines_tryFormat builderBound "x!" rfl⟩

/-- A builder with an unbound placeholder: template `"{a} {b}"` with only
`"a" ↦ "x"` bound (`"b"` unbound). -/
def builderUnbound : FormatBuilder :=
  (toFormat "{a} {b}").arg "a" "x"

/-- C6: when one or more placeholders are unbound — the inputs on which
`format` silently degrades — `try_format` returns an explicit error
instead of a string. -/
theorem tryFormat_unbound_is_error (b : FormatBuilder) (k : String)
    (hmem : k ∈ b.placeholders) (hnone : b.args k = none) :
    ∃ e, b.tryFormat = Except.error e :=
  exists_error_of_unbound b k hmem hnone

/-- Witness for C6: `"b"` is a placeholder of `builderUnbound` and is
unbound, so `try_format` errors there. -/
theorem tryFormat_unbound_is_error_witness :
    ("b" ∈ builderUnbound.placeholders ∧ builderUnbound.args "b" = none) ∧
    ∃ e, builderUnbound.tryFormat = Except.error e :=
  ⟨⟨by decide, rfl⟩, tryFormat_unbound_is_error builderUnbound "b" (by decide) rfl⟩

/-- C1 as stated is false: with template `"{a} {b}"` and only `"a" ↦ "x"`
bound, `format` does not substitute the bound placeholder — it returns
the whole template verbatim, not `"x {b}"`. -/
theorem format_partial_substitution_refuted :
    builderUnbound.format = "{a} {b}" ∧ builderUnbound.format ≠ "x {b}" := by
  constructor
  · rfl
  · decide

/-- C1 (amended): when one or more placeholders are unbound, `format`
does not fail — it falls back to returning the template unchanged, with
no placeholder (bound or unbound) substituted. -/
theorem format_unbound_returns_template (b : FormatBuilder) (k : String)
    (hmem : k ∈ b.placeholders) (hnone : b.args k = none) :
    b.format = String.mk b.tpl := by
  obtain ⟨e, he⟩ := exists_error_of_unbound b k hmem hnone
  simp [FormatBuilder.format, he, FormatBuilder.noopFormat]

/-- Witness for C1: on `builderUnbound` the fallback returns the template
`"{a} {b}"` itself. -/
theorem format_unbound_returns_template_witness :
    ("b" ∈ builderUnbound.placeholders ∧ builderUnbound.args "b" = none) ∧
    builderUnbound.format = String.mk builderUnbound.tpl :=
  ⟨⟨by decide, rfl⟩,
   format_unbound_returns_template builderUnbound "b" (by decide) rfl⟩

/-! ## Numeric formatting lemmas -/

theorem roundToPrec_zero_zero (p : Nat) : roundToPrec ⟨0, 0⟩ p = 0 := by
  simp [roundToPrec]

theorem roundToPrec_cast_self (n : Nat) (p : Nat) :
    roundToPrec ⟨(n : Int), p⟩ p = (n : Int) := by
  simp [roundToPrec]

theorem natDigits_zero : natDigits 0 = ['0'] := rfl

theorem padZeros_zero_succ (q : Nat) :
    padZeros (q + 1) ['0'] = List.replicate (q + 1) '0' := by
  simp only [padZeros, List.length_singleton, Nat.add_sub_cancel]
  exact (List.replicate_succ' q '0').symm

theorem formatNum_zero_succ (q : Nat) :
    formatNum (q + 1) ⟨0, 0⟩ = '0' :: '.' :: List.replicate (q + 1) '0' := by
  simp [formatNum, roundToPrec_zero_zero, natDigits_zero, padZeros_zero_succ, group, groupAux]

theorem replList_replicate_zero {c : Char} (r : List Char) (n : Nat) (hc : c ≠ '0') :
    replList c r (List.replicate n '0') = List.replicate n '0' :=
  replList_of_not_mem r (by simp [List.mem_replicate, hc])

/-- The three-step replacement chain on the rendering of zero. -/
theorem replChain_zero_succ (q : Nat) (dec sep : List Char) (hdec : '!' ∉ dec) :
    replList '!' sep (replList '.' dec
      (replList ',' ['!'] ('0' :: '.' :: List.replicate (q + 1) '0'))) =
    '0' :: (dec ++ List.replicate (q + 1) '0') := by
  have h1 : replList ',' ['!'] ('0' :: '.' :: List.replicate (q + 1) '0') =
      '0' :: '.' :: List.replicate (q + 1) '0' := by
    simp [replList, replList_replicate_zero, List.replicate_succ]
  rw [h1]
  have h2 : replList '.' dec ('0' :: '.' :: List.replicate (q + 1) '0') =
      '0' :: (dec ++ List.replicate (q + 1) '0') := by
    simp [replList, replList_replicate_zero, List.replicate_succ]
  rw [h2]
  have h3 : replList '!' sep ('0' :: (dec ++ List.replicate (q + 1) '0')) =
      '0' :: (replList '!' sep dec ++ List.replicate (q + 1) '0') := by
    simp [replList, replList_append, replList_replicate_zero, List.replicate_succ]
  rw [h3, replList_of_not_mem sep hdec]

theorem decimalChars_no_bang (loc : Locale) : '!' ∉ loc.decimalChars := by
  cases loc <;> decide

/-- C7: formatting zero yields `"0"` at precision 0, and `"0"`, the
locale's decimal separator, then exactly `p` zero digits at precision
`p ≥ 1`, for every supported locale. -/
theorem format_f64_zero_padding (loc : Locale) (p : Nat) :
    format_f64 ⟨0, 0⟩ p loc =
      if p = 0 then "0"
      else "0" ++ loc.decimalSep ++ String.mk (List.replicate p '0') := by
  cases p with
  | zero => cases loc <;> rfl
  | succ q =>
    rw [if_neg (Nat.succ_ne_zero q)]
    rw [format_f64, formatNum_zero_succ,
      replChain_zero_succ q loc.decimalChars loc.separatorChars (decimalChars_no_bang loc)]
    show String.mk (['0'] ++ (loc.decimalChars ++ List.replicate (q + 1) '0')) =
      String.mk ['0'] ++ String.mk loc.decimalChars ++ String.mk (List.replicate (q + 1) '0')
    rw [mk_append, mk_append, List.append_assoc]

/-- C4: `format_f64` rounds halves away from zero at the `precision`-th
digit (not half-to-even): the boundary cases of the repository's tests,
and in general a value whose digit `p + 1` is an exact trailing `5` is
rounded to the digit-`p` value one larger in magnitude, for either sign
(half-to-even would round half of these down). -/
theorem format_f64_half_away :
    (format_f64 ⟨5, 3⟩ 2 .de_DE = "0,01" ∧
     format_f64 ⟨9, 3⟩ 2 .de_DE = "0,01" ∧
     format_f64 ⟨1, 3⟩ 2 .de_DE = "0,00") ∧
    (∀ a p : Nat,
      roundToPrec ⟨((10 * a + 5 : Nat) : Int), p + 1⟩ p = (a : Int) + 1 ∧
      roundToPrec ⟨-((10 * a + 5 : Nat) : Int), p + 1⟩ p = -((a : Int) + 1)) := by
  refine ⟨⟨by decide, by decide, by decide⟩, ?_⟩
  intro a p
  have hp : ¬ p + 1 ≤ p := by omega
  have hsub : p + 1 - p = 1 := by omega
  have hq : (10 * a + 5 + 10 ^ 1 / 2) / 10 ^ 1 = a + 1 := by omega
  constructor
  · rw [roundToPrec, if_neg hp, hsub]
    rw [if_neg (by omega : ¬ ((10 * a + 5 : Nat) : Int) < 0)]
    rw [Int.natAbs_ofNat, hq]
    push_cast
    ring
  · rw [roundToPrec, if_neg hp, hsub]
    rw [if_pos (by omega : -((10 * a + 5 : Nat) : Int) < 0)]
    rw [Int.natAbs_neg, Int.natAbs_ofNat, hq]
    push_cast
    ring

/-- C5: the minus sign is dropped exactly when the value rounds to zero
at the chosen precision: the repository's boundary cases, and in general
a value that rounds to zero formats exactly like zero (the sign cannot
survive), while a value that rounds to a negative number formats as `"-"`
followed by the formatting of the rounded magnitude. -/
theorem format_f64_sign_drop :
    (format_f64 ⟨-1, 3⟩ 2 .de_DE = "0,00" ∧
     format_f64 ⟨-5, 3⟩ 2 .de_DE = "-0,01") ∧
    (∀ (d : Dec) (p : Nat) (loc : Locale), roundToPrec d p = 0 →
      format_f64 d p loc = format_f64 ⟨0, 0⟩ p loc) ∧
    (∀ (d : Dec) (p : Nat) (loc : Locale), roundToPrec d p < 0 →
      format_f64 d p loc =
        "-" ++ format_f64 ⟨((roundToPrec d p).natAbs : Int), p⟩ p loc) := by
  refine ⟨⟨by decide, by decide⟩, ?_, ?_⟩
  · intro d p loc h
    have hnum : formatNum p d = formatNum p ⟨0, 0⟩ := by
      rw [formatNum, formatNum, h, roundToPrec_zero_zero]
    rw [format_f64, format_f64, hnum]
  · intro d p loc h
    have hnum : formatNum p d =
        '-' :: formatNum p ⟨((roundToPrec d p).natAbs : Int), p⟩ := by
      rw [formatNum, formatNum, roundToPrec_cast_self, Int.natAbs_ofNat]
      rw [if_pos h, if_neg (by omega : ¬ (((roundToPrec d p).natAbs : Nat) : Int) < 0)]
      rfl
    rw [format_f64, format_f64, hnum]
    have hchain : ∀ (c : Char) (r l : List Char), c ≠ '-' →
        replList c r ('-' :: l) = '-' :: replList c r l := by
      intro c r l hc
      simp [replList, Ne.symm hc]
    rw [hchain ',' ['!'] _ (by decide), hchain '.' loc.decimalChars _ (by decide),
      hchain '!' loc.separatorChars _ (by decide)]
    rfl

/-- Witness for C5: at precision 2, `-0.001` rounds to zero and formats
like zero, while `-0.005` rounds to `-0.01` and keeps its sign. -/
theorem format_f64_sign_drop_witness :
    (roundToPrec ⟨-1, 3⟩ 2 = 0 ∧
      format_f64 ⟨-1, 3⟩ 2 .de_DE = format_f64 ⟨0, 0⟩ 2 .de_DE) ∧
    (roundToPrec ⟨-5, 3⟩ 2 < 0 ∧
      format_f64 ⟨-5, 3⟩ 2 .de_DE =
        "-" ++ format_f64 ⟨((roundToPrec ⟨-5, 3⟩ 2).natAbs : Int), 2⟩ 2 .de_DE) :=
  ⟨⟨by decide, format_f64_sign_drop.2.1 ⟨-1, 3⟩ 2 .de_DE (by decide)⟩,
   ⟨by decide, format_f64_sign_drop.2.2 ⟨-5, 3⟩ 2 .de_DE (by decide)⟩⟩

/-- C8: the grouping separator is applied to the integer part even when
fractional digits are present: the repository's test cases at precision
5, and in general `1234` at any precision `p + 1` renders as `"1.234,"`
followed by `p + 1` zero digits in `de_DE`. -/
theorem format_f64_grouping_with_fraction :
    format_f64 ⟨1234, 0⟩ 5 .de_DE = "1.234,00000" ∧
    format_f64 ⟨-1234, 0⟩ 5 .de_DE = "-1.234,00000" ∧
    ∀ p : Nat, format_f64 ⟨1234, 0⟩ (p + 1) .de_DE =
      "1.234," ++ String.mk (List.replicate (p + 1) '0') := by
  refine ⟨by decide, by decide, ?_⟩
  intro p
  have hr : roundToPrec ⟨1234, 0⟩ (p + 1) = ((1234 * 10 ^ (p + 1) : Nat) : Int) := by
    simp [roundToPrec]
  have hsign : ¬ roundToPrec ⟨1234, 0⟩ (p + 1) < 0 := by
    rw [hr]; omega
  have habs : (roundToPrec ⟨1234, 0⟩ (p + 1)).natAbs = 1234 * 10 ^ (p + 1) := by
    rw [hr, Int.natAbs_ofNat]
  have hnum : formatNum (p + 1) ⟨1234, 0⟩ =
      ['1', ',', '2', '3', '4'] ++ ('.' :: List.replicate (p + 1) '0') := by
    rw [formatNum, if_neg hsign, habs,
      Nat.mul_div_cancel _ (Nat.pos_pow_of_pos (p + 1) (by norm_num)),
      Nat.mul_mod_left, if_neg (Nat.succ_ne_zero p), natDigits_zero, padZeros_zero_succ]
    rw [show group (natDigits 1234) = ['1', ',', '2', '3', '4'] from rfl]
    simp
  have hchain : replList '!' ['.'] (replList '.' [','] (replList ',' ['!']
      (['1', ',', '2', '3', '4'] ++ ('.' :: List.replicate (p + 1) '0')))) =
      ['1', '.', '2', '3', '4', ','] ++ List.replicate (p + 1) '0' := by
    simp [replList_append, replList, replList_replicate_zero, List.replicate_succ]
  rw [format_f64, hnum]
  show String.mk (replList '!' ['.'] (replList '.' [','] (replList ',' ['!']
      (['1', ',', '2', '3', '4'] ++ ('.' :: List.replicate (p + 1) '0'))))) = _
  rw [hchain]
  show String.mk (['1', '.', '2', '3', '4', ','] ++ List.replicate (p + 1) '0') =
    String.mk ['1', '.', '2', '3', '4', ','] ++ String.mk (List.replicate (p + 1) '0')
  exact (mk_append _ _).symm

end Getprose
